import Mathlib

/-!
Verification of the UnrealImGui context-proxy layer.

Shallow embedding of:
- `FImGuiContextProxy` (ImGuiContextProxy.cpp / .h): frame state machine
  (`Tick`, `Draw`, `BeginFrame`, `EndFrame`, `UpdateDrawData`, destructor),
- `FImGuiDrawList` (ImGuiDrawData.h) and its index-emission contract,
- `ImGuiInterops` (ImGuiInteroperability.cpp): `CopyInput`, `GetMouseIndex`,
  `GetKeyIndex`, `ToSlateMouseCursor`.

Stateful C++ is embedded as explicit state passing; calls into the native
ImGui library and into registered callbacks are recorded in an event trace.
`float` quantities are modelled as rationals; `uint32` as `Nat` with
explicit reduction mod 2^32 where the source relies on wrap-around.
-/

namespace UnrealImGui

/-! ## Draw data (ImGuiDrawData.h, FImGuiContextProxy::UpdateDrawData) -/

/-- One native `ImDrawCmd`: element count, clip rectangle, texture id. -/
structure ImDrawCmd where
  elemCount : Nat
  clipRect : ℚ × ℚ × ℚ × ℚ
  textureId : Nat
deriving DecidableEq

/-- One native `ImDrawVert`: position, UV, packed colour. -/
structure ImDrawVert where
  pos : ℚ × ℚ
  uv : ℚ × ℚ
  col : Nat
deriving DecidableEq

/-- One native `ImDrawList`: command buffer, index buffer, vertex buffer. -/
structure ImDrawListData where
  cmdBuffer : List ImDrawCmd
  idxBuffer : List Nat
  vtxBuffer : List ImDrawVert
deriving DecidableEq

/-- `FImGuiDrawList`: the proxy-owned capture of one native draw list
(fields `ImGuiCommandBuffer`, `ImGuiIndexBuffer`, `ImGuiVertexBuffer`). -/
structure FImGuiDrawList where
  ImGuiCommandBuffer : List ImDrawCmd
  ImGuiIndexBuffer : List Nat
  ImGuiVertexBuffer : List ImDrawVert
deriving DecidableEq

/-- A default-constructed `FImGuiDrawList` (all buffers empty). -/
def emptyDrawList : FImGuiDrawList := ⟨[], [], []⟩

/-- Modelled from the spec: `FImGuiDrawList::TransferDrawData` (its definition
in ImGuiDrawData.cpp is not under src/; the header documents it as
"Transfers data from ImGui source list to this object", and the spec's
Capture operation "copies data out of a native library-owned buffer ...
into proxy-owned storage"). The capture takes over the source's command,
index and vertex buffers unchanged. -/
def FImGuiDrawList.transferDrawData (src : ImDrawListData) : FImGuiDrawList :=
  ⟨src.cmdBuffer, src.idxBuffer, src.vtxBuffer⟩

/-- Modelled from the spec: `FImGuiDrawList::CopyIndexData` (its definition in
ImGuiDrawData.cpp is not under src/; the spec: "copies a contiguous sub-range
of the internal index buffer into a caller-supplied buffer; start + count must
not exceed the recorded total; violation is a programming-error class failure
(fatal/assert, not recoverable)"). `none` models the fatal assertion. -/
def FImGuiDrawList.copyIndexData (dl : FImGuiDrawList) (startIndex numElements : Nat) :
    Option (List Nat) :=
  if startIndex + numElements ≤ dl.ImGuiIndexBuffer.length then
    some ((dl.ImGuiIndexBuffer.drop startIndex).take numElements)
  else
    none

/-- `TArray::SetNum(n, false)`: resize to `n` entries, truncating or padding
with default-constructed elements. -/
def setNum (l : List FImGuiDrawList) (n : Nat) : List FImGuiDrawList :=
  l.take n ++ List.replicate (n - l.length) emptyDrawList

/-- The per-index loop of `FImGuiContextProxy::UpdateDrawData`: overwrite
`buf[i]` with the capture of `srcs[i]` for every `i` below `srcs.length`. -/
def transferAll (srcs : List ImDrawListData) (buf : List FImGuiDrawList) :
    List FImGuiDrawList :=
  match srcs, buf with
  | [], b => b
  | _ :: _, [] => []
  | s :: ss, _ :: bs => FImGuiDrawList.transferDrawData s :: transferAll ss bs

/-- `FImGuiContextProxy::UpdateDrawData`: when the native draw data is present
and has a positive command-list count, resize the stored array to that count
and transfer each native list; otherwise empty the stored array.
`none` models a null `ImDrawData*`. -/
def updateDrawData (drawData : Option (List ImDrawListData))
    (old : List FImGuiDrawList) : List FImGuiDrawList :=
  match drawData with
  | some ls =>
    if 0 < ls.length then transferAll ls (setNum old ls.length)
    else []
  | none => []

/-- The index-emission loop of `SImGuiWidget::OnPaint`: starting from
`offset`, call `CopyIndexData` for each command with that command's element
count, advancing the offset by the same amount, and concatenate the copied
chunks. `none` propagates the fatal assertion of `CopyIndexData`. -/
def paintIndexLoop (dl : FImGuiDrawList) (cmds : List ImDrawCmd) (offset : Nat) :
    Option (List Nat) :=
  match cmds with
  | [] => some []
  | c :: cs =>
    match dl.copyIndexData offset c.elemCount with
    | none => none
    | some chunk =>
      match paintIndexLoop dl cs (offset + c.elemCount) with
      | none => none
      | some rest => some (chunk ++ rest)

/-- Sum of the element counts of a command buffer. -/
def sumElemCounts (cmds : List ImDrawCmd) : Nat :=
  match cmds with
  | [] => 0
  | c :: cs => c.elemCount + sumElemCounts cs

/-! ## Cursors (ImGuiInterops::ToSlateMouseCursor) -/

/-- The `ImGuiMouseCursor` values distinguished by the source's switch;
`unknownCursor` stands for any other (default-branch) value. -/
inductive ImGuiMouseCursorKind where
  | arrow | textInput | move | resizeNS | resizeEW | resizeNESW | resizeNWSE
  | grabOpen | grabClosed | hand | noCursor | unknownCursor (v : Int)
deriving DecidableEq

/-- `EMouseCursor::Type` values used by the source. -/
inductive EMouseCursorType where
  | defaultCursor | textEditBeam | cardinalCross | resizeUpDown | resizeLeftRight
  | resizeSouthWest | resizeSouthEast | grabHand | grabHandClosed | hand | slateNone
deriving DecidableEq

/-- `ImGuiInterops::ToSlateMouseCursor`. -/
def toSlateMouseCursor (c : ImGuiMouseCursorKind) : EMouseCursorType :=
  match c with
  | .arrow => .defaultCursor
  | .textInput => .textEditBeam
  | .move => .cardinalCross
  | .resizeNS => .resizeUpDown
  | .resizeEW => .resizeLeftRight
  | .resizeNESW => .resizeSouthWest
  | .resizeNWSE => .resizeSouthEast
  | .grabOpen => .grabHand
  | .grabClosed => .grabHandClosed
  | .hand => .hand
  | .noCursor => .slateNone
  | .unknownCursor _ => .slateNone

/-! ## Frame state machine (FImGuiContextProxy) -/

/-- An observable effect of a proxy operation: a call into the native ImGui
library or into a registered draw callback. Callbacks carry the numeric
label of the registered listener. -/
inductive Event where
  | setCurrent
  | callback (id : Nat)
  | render
  | queryActiveItem
  | queryMouseCursor
  | setDeltaTime (dt : ℚ)
  | applyInput (id : Nat)
  | newFrame
deriving DecidableEq

/-- The mutable state of one `FImGuiContextProxy` (ImGuiContextProxy.h):
frame-state flags, last processed frame number, captured has-active-item
flag and mouse cursor, own draw-callback list (`DrawEvent`, bound iff
nonempty), an optional bound input state (identified by a label), and the
captured draw lists. -/
structure ProxyState where
  bIsFrameStarted : Bool
  bIsDrawCalled : Bool
  LastFrameNumber : Nat
  bHasActiveItem : Bool
  MouseCursor : EMouseCursorType
  DrawEvent : List Nat
  InputState : Option Nat
  DrawLists : List FImGuiDrawList
deriving DecidableEq

/-- Library-side inputs read during one proxy operation: the global frame
counter `GFrameNumber`, the `DebugDrawOnWorldTick` console variable, the
shared draw event (`nullptr` modelled as `none`, bound iff the list is
nonempty), and what the native context reports for
`ImGui::IsAnyItemActive`, `ImGui::GetMouseCursor` and (after `Render`)
`ImGui::GetDrawData`. -/
structure Env where
  gFrameNumber : Nat
  debugDrawOnWorldTick : Int
  sharedDrawEvent : Option (List Nat)
  isAnyItemActive : Bool
  imguiMouseCursor : ImGuiMouseCursorKind
  drawData : Option (List ImDrawListData)
deriving DecidableEq

/-- Trace of broadcasting a multicast delegate: one callback event per
registered listener (an unbound delegate broadcasts nothing). -/
def broadcast (listeners : List Nat) : List Event :=
  listeners.map Event.callback

/-- The shared-event part of `FImGuiContextProxy::Draw`'s trace: broadcast
only when the pointer is non-null and the delegate is bound. -/
def sharedBroadcast (shared : Option (List Nat)) : List Event :=
  match shared with
  | some l => if l.isEmpty then [] else broadcast l
  | none => []

/-- The own-event part of `FImGuiContextProxy::Draw`'s trace: broadcast only
when `DrawEvent` is bound. -/
def ownBroadcast (own : List Nat) : List Event :=
  if own.isEmpty then [] else broadcast own

/-- `FImGuiContextProxy::Draw`: when a frame is started and draw was not yet
called, set the draw-called flag, make the context current, and broadcast
the shared and own delegates in the order selected by the
`DebugDrawOnWorldTick` console variable; otherwise do nothing. -/
def drawOp (env : Env) (s : ProxyState) : ProxyState × List Event :=
  if s.bIsFrameStarted && !s.bIsDrawCalled then
    let bSharedFirst := 0 < env.debugDrawOnWorldTick
    let trace :=
      (if bSharedFirst then sharedBroadcast env.sharedDrawEvent else []) ++
      ownBroadcast s.DrawEvent ++
      (if bSharedFirst then [] else sharedBroadcast env.sharedDrawEvent)
    ({ s with bIsDrawCalled := true }, Event.setCurrent :: trace)
  else
    (s, [])

/-- `FImGuiContextProxy::BeginFrame`: when no frame is started, set the
delta time, copy the bound input state (if any) into the library IO, call
`ImGui::NewFrame`, and set started / reset draw-called; otherwise do
nothing. -/
def beginFrameOp (dt : ℚ) (s : ProxyState) : ProxyState × List Event :=
  if !s.bIsFrameStarted then
    ({ s with bIsFrameStarted := true, bIsDrawCalled := false },
      Event.setDeltaTime dt ::
        ((match s.InputState with
          | some i => [Event.applyInput i]
          | none => []) ++ [Event.newFrame]))
  else
    (s, [])

/-- `FImGuiContextProxy::EndFrame`: when a frame is started, call
`ImGui::Render`, replace the stored draw lists from the produced draw data
(`UpdateDrawData`), and clear the started flag; otherwise do nothing. -/
def endFrameOp (env : Env) (s : ProxyState) : ProxyState × List Event :=
  if s.bIsFrameStarted then
    ({ s with DrawLists := updateDrawData env.drawData s.DrawLists,
              bIsFrameStarted := false },
      [Event.render])
  else
    (s, [])

/-- `FImGuiContextProxy::Tick`: guarded by `LastFrameNumber < GFrameNumber`.
When processed: record the frame number, make the context current, and if a
frame is started run `Draw` then `EndFrame`; then snapshot the
has-active-item flag and the mouse cursor, and finally `BeginFrame`. -/
def tickOp (env : Env) (dt : ℚ) (s : ProxyState) : ProxyState × List Event :=
  if s.LastFrameNumber < env.gFrameNumber then
    let s0 := { s with LastFrameNumber := env.gFrameNumber }
    let mid :=
      if s0.bIsFrameStarted then
        let d := drawOp env s0
        let e := endFrameOp env d.1
        (e.1, d.2 ++ e.2)
      else
        (s0, [])
    let s2 := { mid.1 with bHasActiveItem := env.isAnyItemActive,
                           MouseCursor := toSlateMouseCursor env.imguiMouseCursor }
    let b := beginFrameOp dt s2
    (b.1, Event.setCurrent :: (mid.2 ++ [Event.queryActiveItem, Event.queryMouseCursor] ++ b.2))
  else
    (s, [])

/-! ## Input state consumption (ImGuiInterops::CopyInput) -/

/-- A dirty index range (`Utilities::TArrayIndexRange`, whose definition is
not under src/). Modelled from the spec: the "minimal index span of a
fixed-size state array that changed since last consumption"; `CopyInput`
copies elements from `GetBegin()` (inclusive) to `GetEnd()` (exclusive), so
the range is empty when it spans no index. -/
structure IndexRange where
  lo : Nat
  hi : Nat
deriving DecidableEq

/-- `TArrayIndexRange::IsEmpty`: the range spans no index. -/
def IndexRange.isEmpty (r : IndexRange) : Bool := r.hi ≤ r.lo

/-- The subrange `Copy` helper of ImGuiInteroperability.cpp: overwrite
`dst[i]` with `src[i]` for every `i` in `[r.lo, r.hi)`, leaving all other
entries of `dst` unchanged. -/
def copyRange (src dst : List Bool) (r : IndexRange) : List Bool :=
  (List.range dst.length).map
    (fun i => if r.lo ≤ i ∧ i < r.hi then src.getD i false else dst.getD i false)

/-- The `FImGuiInputState` fields read by `CopyInput`, at the level of its
accessors (`ImGuiInputState.h` is not under src/; each field mirrors one
accessor call in `CopyInput`). -/
structure FImGuiInputState where
  hasMousePointer : Bool
  mousePosition : ℚ × ℚ
  mouseWheelDelta : ℚ
  isControlDown : Bool
  isShiftDown : Bool
  isAltDown : Bool
  keys : List Bool
  keysUpdateRange : IndexRange
  mouseButtons : List Bool
  mouseButtonsUpdateRange : IndexRange
  characters : List Nat
  charactersNum : Nat
deriving DecidableEq

/-- The `ImGuiIO` fields written by `CopyInput`. -/
structure ImGuiIOModel where
  mouseDrawCursor : Bool
  mousePos : ℚ × ℚ
  mouseWheel : ℚ
  keyCtrl : Bool
  keyShift : Bool
  keyAlt : Bool
  keySuper : Bool
  keysDown : List Bool
  mouseDown : List Bool
  inputCharacters : List Nat
deriving DecidableEq

/-- `ImGuiInterops::CopyInput`: copy pointer visibility, mouse position and
modifier flags unconditionally, accumulate the wheel delta into the running
total, copy keys/buttons only over their non-empty dirty ranges, and copy
the whole character array when any characters are queued. -/
def copyInput (io : ImGuiIOModel) (st : FImGuiInputState) : ImGuiIOModel :=
  { io with
    mouseDrawCursor := st.hasMousePointer
    mousePos := st.mousePosition
    mouseWheel := io.mouseWheel + st.mouseWheelDelta
    keyCtrl := st.isControlDown
    keyShift := st.isShiftDown
    keyAlt := st.isAltDown
    keySuper := false
    keysDown :=
      if st.keysUpdateRange.isEmpty then io.keysDown
      else copyRange st.keys io.keysDown st.keysUpdateRange
    mouseDown :=
      if st.mouseButtonsUpdateRange.isEmpty then io.mouseDown
      else copyRange st.mouseButtons io.mouseDown st.mouseButtonsUpdateRange
    inputCharacters :=
      if 0 < st.charactersNum then st.characters else io.inputCharacters }

/-! ## Key and mouse-button index lookup (ImGuiInteroperability.cpp) -/

/-- Unreal `FKey` values distinguished by `GetMouseIndex`; `otherKey` stands
for every key that is none of the five mouse buttons. -/
inductive FKey where
  | leftMouseButton
  | rightMouseButton
  | middleMouseButton
  | thumbMouseButton
  | thumbMouseButton2
  | otherKey (code : Nat)
deriving DecidableEq

/-- `ImGuiInterops::GetMouseIndex`, branch for branch in source order; the
final `return -1` on a `uint32` return type yields `2 ^ 32 - 1`. -/
def getMouseIndex (k : FKey) : Nat :=
  if k = FKey.leftMouseButton then 0
  else if k = FKey.middleMouseButton then 2
  else if k = FKey.rightMouseButton then 1
  else if k = FKey.thumbMouseButton then 3
  else if k = FKey.thumbMouseButton2 then 4
  else 2 ^ 32 - 1

/-- `ImGuiInterops::GetKeyIndex`, over the result of the external
`FInputKeyManager::GetCodesFromKey` lookup (a possible key code and a
possible char code): prefer the key code, fall back to the char code, and
when neither exists hit `checkf(false, ...)` — a fatal assertion, modelled
as `none`. -/
def getKeyIndex (keyCode charCode : Option Nat) : Option Nat :=
  match keyCode with
  | some k => some k
  | none =>
    match charCode with
    | some c => some c
    | none => none

/-! ## Destructor (FImGuiContextProxy::~FImGuiContextProxy) -/

/-- One step of the destructor's interaction with the ImGui library. -/
inductive DtorEvent where
  | setCurrentCtx (ctx : Nat)
  | saveIniSettings (path : String)
  | destroyCtx (ctx : Nat)
deriving DecidableEq

/-- The library-global context state: the current-context pointer
(`GImGui`) and the set of live contexts. Context 0 stands for the static
`GImDefaultContext` returned by `ImGuiImplementation::GetDefaultContext`. -/
structure GlobalImGui where
  currentContext : Nat
  liveContexts : List Nat
deriving DecidableEq

/-- `ImGuiImplementation::GetDefaultContext`: the static default context. -/
def defaultContextId : Nat := 0

/-- `GetIniFile` composed with `GetSaveDirectory` (ImGuiContextProxy.cpp):
the settings path derived from the proxy's name, under the `ImGui`
subdirectory of the application save directory. -/
def getIniFile (savedDir name : String) : String :=
  savedDir ++ "/ImGui/" ++ name ++ ".ini"

/-- `FImGuiContextProxy::~FImGuiContextProxy`: when the context was created,
make it current, save its ini settings, destroy it, then set the default
context as current; when no context exists, do nothing. -/
def destructorOp (ctx : Option Nat) (iniFilename : String) (g : GlobalImGui) :
    GlobalImGui × List DtorEvent :=
  match ctx with
  | some c =>
    ({ currentContext := defaultContextId, liveContexts := g.liveContexts.erase c },
      [DtorEvent.setCurrentCtx c, DtorEvent.saveIniSettings iniFilename,
       DtorEvent.destroyCtx c, DtorEvent.setCurrentCtx defaultContextId])
  | none => (g, [])

/-- Default-initialized proxy fields (the member initializers of
ImGuiContextProxy.h). -/
def initialProxyFields : ProxyState :=
  { bIsFrameStarted := false
    bIsDrawCalled := false
    LastFrameNumber := 0
    bHasActiveItem := false
    MouseCursor := EMouseCursorType.slateNone
    DrawEvent := []
    InputState := none
    DrawLists := [] }

/-- The proxy state at the end of the constructor, which finishes with one
`BeginFrame()` at the default delta time of 1/60. -/
def constructedProxyState : ProxyState := (beginFrameOp (1 / 60) initialProxyFields).1

/-! ## Helper lemmas -/

theorem length_setNum (l : List FImGuiDrawList) (n : Nat) : (setNum l n).length = n := by
  simp [setNum]
  omega

theorem transferAll_eq_map (ls : List ImDrawListData) (buf : List FImGuiDrawList)
    (h : buf.length = ls.length) :
    transferAll ls buf = ls.map FImGuiDrawList.transferDrawData := by
  induction ls generalizing buf with
  | nil =>
    cases buf with
    | nil => rfl
    | cons b bs => simp at h
  | cons s ss ih =>
    cases buf with
    | nil => simp at h
    | cons b bs =>
      simp only [transferAll, List.map]
      rw [ih bs (by simpa using h)]

theorem updateDrawData_some_pos (ls : List ImDrawListData) (old : List FImGuiDrawList)
    (h : 0 < ls.length) :
    updateDrawData (some ls) old = ls.map FImGuiDrawList.transferDrawData := by
  simp only [updateDrawData, if_pos h]
  exact transferAll_eq_map ls (setNum old ls.length) (length_setNum old ls.length)

theorem drawOp_lastFrameNumber (env : Env) (s : ProxyState) :
    (drawOp env s).1.LastFrameNumber = s.LastFrameNumber := by
  unfold drawOp
  split <;> rfl

theorem endFrameOp_lastFrameNumber (env : Env) (s : ProxyState) :
    (endFrameOp env s).1.LastFrameNumber = s.LastFrameNumber := by
  unfold endFrameOp
  split <;> rfl

theorem beginFrameOp_lastFrameNumber (dt : ℚ) (s : ProxyState) :
    (beginFrameOp dt s).1.LastFrameNumber = s.LastFrameNumber := by
  unfold beginFrameOp
  split <;> rfl

theorem tickOp_lastFrameNumber_ge (env : Env) (dt : ℚ) (s : ProxyState) :
    ¬ (tickOp env dt s).1.LastFrameNumber < env.gFrameNumber := by
  unfold tickOp
  by_cases hg : s.LastFrameNumber < env.gFrameNumber
  · rw [if_pos hg]
    simp only [beginFrameOp_lastFrameNumber]
    by_cases hs : ({ s with LastFrameNumber := env.gFrameNumber } : ProxyState).bIsFrameStarted
    · simp only [if_pos hs, endFrameOp_lastFrameNumber, drawOp_lastFrameNumber]
      exact Nat.lt_irrefl _
    · simp only [if_neg hs]
      exact Nat.lt_irrefl _
  · rw [if_neg hg]
    exact hg

theorem tickOp_of_not_lt (env : Env) (dt : ℚ) (s : ProxyState)
    (h : ¬ s.LastFrameNumber < env.gFrameNumber) : tickOp env dt s = (s, []) := by
  unfold tickOp
  rw [if_neg h]

theorem tickOp_started_eq (env : Env) (dt : ℚ) (s : ProxyState)
    (hg : s.LastFrameNumber < env.gFrameNumber) (hs : s.bIsFrameStarted = true) :
    tickOp env dt s =
      ({ s with LastFrameNumber := env.gFrameNumber,
                bIsFrameStarted := true,
                bIsDrawCalled := false,
                bHasActiveItem := env.isAnyItemActive,
                MouseCursor := toSlateMouseCursor env.imguiMouseCursor,
                DrawLists := updateDrawData env.drawData s.DrawLists },
        Event.setCurrent ::
          ((drawOp env { s with LastFrameNumber := env.gFrameNumber }).2 ++
            ([Event.render] ++ [Event.queryActiveItem, Event.queryMouseCursor] ++
              (Event.setDeltaTime dt ::
                ((match s.InputState with
                  | some i => [Event.applyInput i]
                  | none => []) ++ [Event.newFrame]))))) := by
  by_cases hd : s.bIsDrawCalled <;>
    simp [tickOp, drawOp, endFrameOp, beginFrameOp, hg, hs, hd]

theorem tickOp_not_started_eq (env : Env) (dt : ℚ) (s : ProxyState)
    (hg : s.LastFrameNumber < env.gFrameNumber) (hs : s.bIsFrameStarted = false) :
    tickOp env dt s =
      ({ s with LastFrameNumber := env.gFrameNumber,
                bIsFrameStarted := true,
                bIsDrawCalled := false,
                bHasActiveItem := env.isAnyItemActive,
                MouseCursor := toSlateMouseCursor env.imguiMouseCursor },
        Event.setCurrent ::
          ([Event.queryActiveItem, Event.queryMouseCursor] ++
            (Event.setDeltaTime dt ::
              ((match s.InputState with
                | some i => [Event.applyInput i]
                | none => []) ++ [Event.newFrame])))) := by
  simp [tickOp, drawOp, endFrameOp, beginFrameOp, hg, hs]

theorem length_copyRange (src dst : List Bool) (r : IndexRange) :
    (copyRange src dst r).length = dst.length := by
  simp [copyRange]

theorem getD_copyRange (src dst : List Bool) (r : IndexRange) (i : Nat)
    (hi : i < dst.length) :
    (copyRange src dst r).getD i false =
      if r.lo ≤ i ∧ i < r.hi then src.getD i false else dst.getD i false := by
  have hlen : i < (copyRange src dst r).length := by
    rw [length_copyRange]
    exact hi
  rw [List.getD_eq_getElem _ _ hlen]
  simp [copyRange]

theorem copyIndexData_of_le (dl : FImGuiDrawList) (s n : Nat)
    (h : s + n ≤ dl.ImGuiIndexBuffer.length) :
    dl.copyIndexData s n = some ((dl.ImGuiIndexBuffer.drop s).take n) := by
  simp [FImGuiDrawList.copyIndexData, h]

theorem paintIndexLoop_eq (dl : FImGuiDrawList) (cmds : List ImDrawCmd) (offset : Nat)
    (h : offset + sumElemCounts cmds ≤ dl.ImGuiIndexBuffer.length) :
    paintIndexLoop dl cmds offset =
      some ((dl.ImGuiIndexBuffer.drop offset).take (sumElemCounts cmds)) := by
  induction cmds generalizing offset with
  | nil =>
    simp [paintIndexLoop, sumElemCounts]
  | cons c cs ih =>
    have hsum : sumElemCounts (c :: cs) = c.elemCount + sumElemCounts cs := rfl
    have h1 : offset + c.elemCount ≤ dl.ImGuiIndexBuffer.length := by
      rw [hsum] at h
      omega
    have h2 : (offset + c.elemCount) + sumElemCounts cs ≤ dl.ImGuiIndexBuffer.length := by
      rw [hsum] at h
      omega
    simp only [paintIndexLoop, copyIndexData_of_le dl offset c.elemCount h1,
      ih (offset + c.elemCount) h2, hsum]
    rw [List.take_add, ← List.drop_drop]

/-! ## Claim theorems -/

/-- C1: if the global frame counter is unchanged between two consecutive
`Tick` calls, the second call is a complete no-op: the proxy state (frame
flags, last frame number, active-item and cursor snapshots, draw lists) is
unchanged and no library call or callback runs (empty event trace). -/
theorem tick_same_frame_is_noop (env1 env2 : Env) (dt1 dt2 : ℚ) (s : ProxyState)
    (h : env2.gFrameNumber = env1.gFrameNumber) :
    tickOp env2 dt2 (tickOp env1 dt1 s).1 = ((tickOp env1 dt1 s).1, []) := by
  have hge : ¬ (tickOp env1 dt1 s).1.LastFrameNumber < env2.gFrameNumber := by
    rw [h]
    exact tickOp_lastFrameNumber_ge env1 dt1 s
  exact tickOp_of_not_lt env2 dt2 _ hge

/-- C1 witness: two `Tick` calls at frame number 5 from a started state; the
second call leaves the state of the first untouched and emits no events. -/
theorem tick_same_frame_is_noop_witness :
    tickOp ⟨5, 1, none, false, ImGuiMouseCursorKind.arrow, none⟩ (1 / 60)
        (tickOp ⟨5, 1, none, false, ImGuiMouseCursorKind.arrow, none⟩ (1 / 60)
          ⟨true, false, 0, false, EMouseCursorType.slateNone, [], none, []⟩).1
      = ((tickOp ⟨5, 1, none, false, ImGuiMouseCursorKind.arrow, none⟩ (1 / 60)
          ⟨true, false, 0, false, EMouseCursorType.slateNone, [], none, []⟩).1, []) :=
  tick_same_frame_is_noop
    ⟨5, 1, none, false, ImGuiMouseCursorKind.arrow, none⟩
    ⟨5, 1, none, false, ImGuiMouseCursorKind.arrow, none⟩
    (1 / 60) (1 / 60)
    ⟨true, false, 0, false, EMouseCursorType.slateNone, [], none, []⟩ rfl

/-- C2: redundant frame-boundary calls are silently absorbed: `EndFrame`
with no frame started, `Draw` with no frame started or with draw already
called, and `BeginFrame` with a frame already started all leave the state
unchanged and perform no library call or callback. -/
theorem redundant_calls_are_noops (env : Env) (dt : ℚ) (s : ProxyState) :
    (s.bIsFrameStarted = false → endFrameOp env s = (s, [])) ∧
    (s.bIsFrameStarted = false ∨ s.bIsDrawCalled = true → drawOp env s = (s, [])) ∧
    (s.bIsFrameStarted = true → beginFrameOp dt s = (s, [])) := by
  refine ⟨fun h => ?_, fun h => ?_, fun h => ?_⟩
  · simp [endFrameOp, h]
  · rcases h with h | h <;> simp [drawOp, h]
  · simp [beginFrameOp, h]

/-- C2 witness: a not-started state absorbs `EndFrame`; the same theorem's
other conjuncts cover `Draw` and `BeginFrame` at concrete states. -/
theorem redundant_calls_are_noops_witness :
    endFrameOp ⟨5, 1, none, false, ImGuiMouseCursorKind.arrow, none⟩
        ⟨false, false, 0, false, EMouseCursorType.slateNone, [], none, []⟩
      = (⟨false, false, 0, false, EMouseCursorType.slateNone, [], none, []⟩, []) ∧
    drawOp ⟨5, 1, none, false, ImGuiMouseCursorKind.arrow, none⟩
        ⟨true, true, 0, false, EMouseCursorType.slateNone, [7], none, []⟩
      = (⟨true, true, 0, false, EMouseCursorType.slateNone, [7], none, []⟩, []) ∧
    beginFrameOp (1 / 60)
        ⟨true, false, 0, false, EMouseCursorType.slateNone, [], none, []⟩
      = (⟨true, false, 0, false, EMouseCursorType.slateNone, [], none, []⟩, []) :=
  ⟨(redundant_calls_are_noops ⟨5, 1, none, false, ImGuiMouseCursorKind.arrow, none⟩ (1 / 60)
      ⟨false, false, 0, false, EMouseCursorType.slateNone, [], none, []⟩).1 rfl,
   (redundant_calls_are_noops ⟨5, 1, none, false, ImGuiMouseCursorKind.arrow, none⟩ (1 / 60)
      ⟨true, true, 0, false, EMouseCursorType.slateNone, [7], none, []⟩).2.1 (Or.inr rfl),
   (redundant_calls_are_noops ⟨5, 1, none, false, ImGuiMouseCursorKind.arrow, none⟩ (1 / 60)
      ⟨true, false, 0, false, EMouseCursorType.slateNone, [], none, []⟩).2.2 rfl⟩

/-- C3: a processed `Tick` (new frame number) with a frame started performs,
in order: `Draw` (its trace), then `EndFrame` (`render`, capturing the draw
output into the stored draw lists), then the has-active-item and
mouse-cursor snapshots, then `BeginFrame`; and after every processed `Tick`
— and after construction, which ends with one `BeginFrame` — the proxy is
frame-started with the draw-called flag reset to false. -/
theorem tick_orders_frame_transition (env : Env) (dt : ℚ) (s : ProxyState)
    (hg : s.LastFrameNumber < env.gFrameNumber) :
    (tickOp env dt s).1.bIsFrameStarted = true ∧
    (tickOp env dt s).1.bIsDrawCalled = false ∧
    (tickOp env dt s).1.bHasActiveItem = env.isAnyItemActive ∧
    (tickOp env dt s).1.MouseCursor = toSlateMouseCursor env.imguiMouseCursor ∧
    (s.bIsFrameStarted = true →
      (tickOp env dt s).1.DrawLists = updateDrawData env.drawData s.DrawLists ∧
      (tickOp env dt s).2 =
        Event.setCurrent ::
          ((drawOp env { s with LastFrameNumber := env.gFrameNumber }).2 ++
            ([Event.render] ++ [Event.queryActiveItem, Event.queryMouseCursor] ++
              (Event.setDeltaTime dt ::
                ((match s.InputState with
                  | some i => [Event.applyInput i]
                  | none => []) ++ [Event.newFrame]))))) ∧
    constructedProxyState.bIsFrameStarted = true ∧
    constructedProxyState.bIsDrawCalled = false := by
  by_cases hs : s.bIsFrameStarted
  · rw [tickOp_started_eq env dt s hg hs]
    exact ⟨rfl, rfl, rfl, rfl, fun _ => ⟨rfl, rfl⟩, rfl, rfl⟩
  · rw [tickOp_not_started_eq env dt s hg (Bool.not_eq_true _ ▸ hs)]
    exact ⟨rfl, rfl, rfl, rfl, fun h => absurd h hs, rfl, rfl⟩

/-- C3 witness: a processed `Tick` at frame 1 from the constructed (started)
state, with one registered callback and draw data of one native list. -/
theorem tick_orders_frame_transition_witness :
    (tickOp ⟨1, 0, none, true, ImGuiMouseCursorKind.hand, some [⟨[⟨3, (0, 0, 1, 1), 0⟩], [0, 1, 2], []⟩]⟩
        (1 / 60)
        ⟨true, false, 0, false, EMouseCursorType.slateNone, [4], none, []⟩).1.bIsFrameStarted = true ∧
    (tickOp ⟨1, 0, none, true, ImGuiMouseCursorKind.hand, some [⟨[⟨3, (0, 0, 1, 1), 0⟩], [0, 1, 2], []⟩]⟩
        (1 / 60)
        ⟨true, false, 0, false, EMouseCursorType.slateNone, [4], none, []⟩).1.bIsDrawCalled = false :=
  ⟨(tick_orders_frame_transition
      ⟨1, 0, none, true, ImGuiMouseCursorKind.hand, some [⟨[⟨3, (0, 0, 1, 1), 0⟩], [0, 1, 2], []⟩]⟩
      (1 / 60)
      ⟨true, false, 0, false, EMouseCursorType.slateNone, [4], none, []⟩ (by decide)).1,
   (tick_orders_frame_transition
      ⟨1, 0, none, true, ImGuiMouseCursorKind.hand, some [⟨[⟨3, (0, 0, 1, 1), 0⟩], [0, 1, 2], []⟩]⟩
      (1 / 60)
      ⟨true, false, 0, false, EMouseCursorType.slateNone, [4], none, []⟩ (by decide)).2.1⟩

/-- C4: `EndFrame` with a frame started replaces the stored draw lists
wholesale with the new frame's capture: with null draw data or zero command
lists the stored list becomes empty; with N > 0 native lists the stored
list has exactly N entries, each the transfer of the corresponding native
list; no dependence on the previous capture remains; and the frame-started
flag is cleared. -/
theorem endframe_replaces_drawlists (env : Env) (s : ProxyState)
    (hs : s.bIsFrameStarted = true) :
    (endFrameOp env s).1.bIsFrameStarted = false ∧
    (endFrameOp env s).1.DrawLists = updateDrawData env.drawData s.DrawLists ∧
    (env.drawData = none → (endFrameOp env s).1.DrawLists = []) ∧
    (∀ ls : List ImDrawListData, env.drawData = some ls →
      (ls.length = 0 → (endFrameOp env s).1.DrawLists = []) ∧
      (0 < ls.length →
        (endFrameOp env s).1.DrawLists = ls.map FImGuiDrawList.transferDrawData ∧
        (endFrameOp env s).1.DrawLists.length = ls.length ∧
        ∀ i, (hi : i < ls.length) →
          (endFrameOp env s).1.DrawLists.getD i emptyDrawList
            = FImGuiDrawList.transferDrawData (ls.getD i ⟨[], [], []⟩))) ∧
    (∀ old1 old2 : List FImGuiDrawList,
      updateDrawData env.drawData old1 = updateDrawData env.drawData old2) := by
  have hlists : (endFrameOp env s).1.DrawLists = updateDrawData env.drawData s.DrawLists := by
    simp [endFrameOp, hs]
  have hindep : ∀ old1 old2 : List FImGuiDrawList,
      updateDrawData env.drawData old1 = updateDrawData env.drawData old2 := by
    intro old1 old2
    cases hdd : env.drawData with
    | none => rfl
    | some ls =>
      by_cases hl : 0 < ls.length
      · rw [updateDrawData_some_pos ls old1 hl, updateDrawData_some_pos ls old2 hl]
      · simp [updateDrawData, hl]
  refine ⟨by simp [endFrameOp, hs], hlists, fun hdd => ?_, fun ls hdd => ⟨fun hl => ?_, fun hl => ?_⟩, hindep⟩
  · rw [hlists, hdd]
    rfl
  · rw [hlists, hdd]
    simp [updateDrawData, hl]
  · have hmap : (endFrameOp env s).1.DrawLists = ls.map FImGuiDrawList.transferDrawData := by
      rw [hlists, hdd, updateDrawData_some_pos ls s.DrawLists hl]
    refine ⟨hmap, by simp [hmap], fun i hi => ?_⟩
    rw [hmap]
    rw [List.getD_eq_getElem _ _ (by simpa using hi), List.getD_eq_getElem _ _ hi]
    simp [List.getElem_map]

/-- C4 witness: ending a started frame whose native output has two command
lists stores exactly those two captures; the previous single stale capture
does not survive. -/
theorem endframe_replaces_drawlists_witness :
    (endFrameOp ⟨1, 0, none, false, ImGuiMouseCursorKind.arrow,
        some [⟨[⟨3, (0, 0, 1, 1), 0⟩], [0, 1, 2], []⟩, ⟨[], [7], []⟩]⟩
        ⟨true, false, 0, false, EMouseCursorType.slateNone, [], none,
          [⟨[⟨9, (0, 0, 0, 0), 5⟩], [9, 9], []⟩]⟩).1.DrawLists
      = [⟨[⟨3, (0, 0, 1, 1), 0⟩], [0, 1, 2], []⟩, ⟨[], [7], []⟩] :=
  ((endframe_replaces_drawlists
      ⟨1, 0, none, false, ImGuiMouseCursorKind.arrow,
        some [⟨[⟨3, (0, 0, 1, 1), 0⟩], [0, 1, 2], []⟩, ⟨[], [7], []⟩]⟩
      ⟨true, false, 0, false, EMouseCursorType.slateNone, [], none,
        [⟨[⟨9, (0, 0, 0, 0), 5⟩], [9, 9], []⟩]⟩ rfl).2.2.2.1
    [⟨[⟨3, (0, 0, 1, 1), 0⟩], [0, 1, 2], []⟩, ⟨[], [7], []⟩] rfl).2 (by decide) |>.1

/-- C5: consuming a bound input state copies keys and mouse buttons only
over the dirty index ranges (and nothing when the corresponding range is
empty), accumulates the wheel delta into the target's running total, and
copies mouse position, pointer visibility and the ctrl/shift/alt modifier
flags unconditionally. -/
theorem copyinput_dirty_ranges (io : ImGuiIOModel) (st : FImGuiInputState) :
    (copyInput io st).mouseDrawCursor = st.hasMousePointer ∧
    (copyInput io st).mousePos = st.mousePosition ∧
    (copyInput io st).keyCtrl = st.isControlDown ∧
    (copyInput io st).keyShift = st.isShiftDown ∧
    (copyInput io st).keyAlt = st.isAltDown ∧
    (copyInput io st).mouseWheel = io.mouseWheel + st.mouseWheelDelta ∧
    (st.keysUpdateRange.isEmpty = true → (copyInput io st).keysDown = io.keysDown) ∧
    (st.mouseButtonsUpdateRange.isEmpty = true →
      (copyInput io st).mouseDown = io.mouseDown) ∧
    (st.keysUpdateRange.isEmpty = false →
      (copyInput io st).keysDown.length = io.keysDown.length ∧
      ∀ i, i < io.keysDown.length →
        (copyInput io st).keysDown.getD i false =
          if st.keysUpdateRange.lo ≤ i ∧ i < st.keysUpdateRange.hi
          then st.keys.getD i false else io.keysDown.getD i false) ∧
    (st.mouseButtonsUpdateRange.isEmpty = false →
      (copyInput io st).mouseDown.length = io.mouseDown.length ∧
      ∀ i, i < io.mouseDown.length →
        (copyInput io st).mouseDown.getD i false =
          if st.mouseButtonsUpdateRange.lo ≤ i ∧ i < st.mouseButtonsUpdateRange.hi
          then st.mouseButtons.getD i false else io.mouseDown.getD i false) := by
  refine ⟨rfl, rfl, rfl, rfl, rfl, rfl, fun h => ?_, fun h => ?_, fun h => ⟨?_, fun i hi => ?_⟩,
    fun h => ⟨?_, fun i hi => ?_⟩⟩
  · simp [copyInput, h]
  · simp [copyInput, h]
  · simp [copyInput, h, length_copyRange]
  · simp only [copyInput, h, Bool.false_eq_true, if_false]
    exact getD_copyRange st.keys io.keysDown st.keysUpdateRange i hi
  · simp [copyInput, h, length_copyRange]
  · simp only [copyInput, h, Bool.false_eq_true, if_false]
    exact getD_copyRange st.mouseButtons io.mouseDown st.mouseButtonsUpdateRange i hi

/-- C5 witness: a state with dirty key range [1, 3) over a 4-entry key
array and an empty mouse-button range: keys copy exactly over the range,
buttons copy nothing, wheel accumulates, flags and position copy. -/
theorem copyinput_dirty_ranges_witness :
    (copyInput
        ⟨false, (0, 0), 2, false, false, false, false, [false, false, false, false], [false, false], []⟩
        ⟨true, (100, 200), 3, true, false, true, [true, true, true, true], ⟨1, 3⟩,
          [true, true], ⟨0, 0⟩, [], 0⟩).keysDown
      = [false, true, true, false] ∧
    (copyInput
        ⟨false, (0, 0), 2, false, false, false, false, [false, false, false, false], [false, false], []⟩
        ⟨true, (100, 200), 3, true, false, true, [true, true, true, true], ⟨1, 3⟩,
          [true, true], ⟨0, 0⟩, [], 0⟩).mouseDown
      = [false, false] ∧
    (copyInput
        ⟨false, (0, 0), 2, false, false, false, false, [false, false, false, false], [false, false], []⟩
        ⟨true, (100, 200), 3, true, false, true, [true, true, true, true], ⟨1, 3⟩,
          [true, true], ⟨0, 0⟩, [], 0⟩).mouseWheel = 5 := by
  have h := copyinput_dirty_ranges
    ⟨false, (0, 0), 2, false, false, false, false, [false, false, false, false], [false, false], []⟩
    ⟨true, (100, 200), 3, true, false, true, [true, true, true, true], ⟨1, 3⟩,
      [true, true], ⟨0, 0⟩, [], 0⟩
  refine ⟨?_, h.2.2.2.2.2.2.2.1 rfl, by rw [h.2.2.2.2.2.1] ; norm_num⟩
  have hk := h.2.2.2.2.2.2.2.2.1 rfl
  have hlen : (copyInput
      ⟨false, (0, 0), 2, false, false, false, false, [false, false, false, false], [false, false], []⟩
      ⟨true, (100, 200), 3, true, false, true, [true, true, true, true], ⟨1, 3⟩,
        [true, true], ⟨0, 0⟩, [], 0⟩).keysDown.length = 4 := hk.1
  have hget := hk.2
  apply List.ext_getElem (by simpa using hlen)
  intro i h1 h2
  have hi4 : i < 4 := by simpa [hlen] using h1
  have := hget i (by simpa using hi4)
  rw [List.getD_eq_getElem _ _ h1, List.getD_eq_getElem _ _ (by simpa using hi4)] at this
  rw [this]
  interval_cases i <;> simp

/-- C6: for a draw list captured from native data whose total index count
matches the documented invariant (the index buffer holds exactly the sum of
all commands' element counts), the captured sum of element counts equals
the captured index-buffer length, and emitting indices over consecutive
ranges — each starting where the previous ended and sized by its command's
element count, as in `SImGuiWidget::OnPaint` — reproduces the captured
index sequence exactly. -/
theorem capture_index_roundtrip (src : ImDrawListData)
    (h : sumElemCounts src.cmdBuffer = src.idxBuffer.length) :
    sumElemCounts (FImGuiDrawList.transferDrawData src).ImGuiCommandBuffer
      = (FImGuiDrawList.transferDrawData src).ImGuiIndexBuffer.length ∧
    paintIndexLoop (FImGuiDrawList.transferDrawData src)
        (FImGuiDrawList.transferDrawData src).ImGuiCommandBuffer 0
      = some (FImGuiDrawList.transferDrawData src).ImGuiIndexBuffer := by
  refine ⟨h, ?_⟩
  rw [paintIndexLoop_eq _ _ 0 (by simpa [FImGuiDrawList.transferDrawData] using Nat.le_of_eq h)]
  simp only [FImGuiDrawList.transferDrawData]
  rw [List.drop_zero, show sumElemCounts src.cmdBuffer = src.idxBuffer.length from h,
    List.take_length]

/-- C6 witness: two commands of 2 and 1 elements over the 3-entry index
buffer [5, 6, 7]; consecutive emission reproduces [5, 6, 7]. -/
theorem capture_index_roundtrip_witness :
    paintIndexLoop
        (FImGuiDrawList.transferDrawData
          ⟨[⟨2, (0, 0, 1, 1), 0⟩, ⟨1, (0, 0, 1, 1), 4⟩], [5, 6, 7], []⟩)
        (FImGuiDrawList.transferDrawData
          ⟨[⟨2, (0, 0, 1, 1), 0⟩, ⟨1, (0, 0, 1, 1), 4⟩], [5, 6, 7], []⟩).ImGuiCommandBuffer 0
      = some [5, 6, 7] :=
  (capture_index_roundtrip
    ⟨[⟨2, (0, 0, 1, 1), 0⟩, ⟨1, (0, 0, 1, 1), 4⟩], [5, 6, 7], []⟩ rfl).2

/-- C7: `CopyIndexData` with start offset `s` and count `n` requires
`s + n ≤` the recorded total index count; under the precondition it copies
exactly the contiguous sub-range `[s, s + n)` of the internal index buffer
(a result of length `n` whose `i`-th element is the buffer's `(s + i)`-th
element), and a violating call is a fatal assertion (`none`), not a
recoverable result. -/
theorem copyindexdata_contract (dl : FImGuiDrawList) (s n : Nat) :
    (s + n ≤ dl.ImGuiIndexBuffer.length →
      ∃ r, dl.copyIndexData s n = some r ∧ r.length = n ∧
        ∀ i, i < n → r.getD i 0 = dl.ImGuiIndexBuffer.getD (s + i) 0) ∧
    (dl.ImGuiIndexBuffer.length < s + n → dl.copyIndexData s n = none) := by
  constructor
  · intro h
    refine ⟨(dl.ImGuiIndexBuffer.drop s).take n, copyIndexData_of_le dl s n h, ?_, ?_⟩
    · simp
      omega
    · intro i hi
      have hlen : i < ((dl.ImGuiIndexBuffer.drop s).take n).length := by
        simp
        omega
      have hsi : s + i < dl.ImGuiIndexBuffer.length := by omega
      rw [List.getD_eq_getElem _ _ hlen, List.getD_eq_getElem _ _ hsi]
      rw [List.getElem_take, List.getElem_drop]
  · intro h
    simp [FImGuiDrawList.copyIndexData, Nat.not_le.mpr h]

/-- C7 witness: copying 2 elements from offset 1 of the 3-entry buffer
[10, 20, 30] succeeds with the sub-range; copying 2 from offset 2 hits the
fatal assertion. -/
theorem copyindexdata_contract_witness :
    (∃ r, (⟨[], [10, 20, 30], []⟩ : FImGuiDrawList).copyIndexData 1 2 = some r ∧
      r.length = 2 ∧
      ∀ i, i < 2 → r.getD i 0 =
        (⟨[], [10, 20, 30], []⟩ : FImGuiDrawList).ImGuiIndexBuffer.getD (1 + i) 0) ∧
    (⟨[], [10, 20, 30], []⟩ : FImGuiDrawList).copyIndexData 2 2 = none :=
  ⟨(copyindexdata_contract (⟨[], [10, 20, 30], []⟩ : FImGuiDrawList) 1 2).1 (by decide),
   (copyindexdata_contract (⟨[], [10, 20, 30], []⟩ : FImGuiDrawList) 2 2).2 (by decide)⟩

/-- C8: the relative ordering of the shared/global and per-proxy callback
lists during a `Draw` that runs callbacks is selected by the
`DebugDrawOnWorldTick` value read at `Draw` time: positive means the shared
list fires first, otherwise the proxy's own list fires first; both
orderings are exhibited at concrete flag values. -/
theorem draw_callback_ordering (env : Env) (s : ProxyState)
    (hs : s.bIsFrameStarted = true) (hd : s.bIsDrawCalled = false) :
    (0 < env.debugDrawOnWorldTick →
      (drawOp env s).2 =
        Event.setCurrent ::
          (sharedBroadcast env.sharedDrawEvent ++ ownBroadcast s.DrawEvent)) ∧
    (env.debugDrawOnWorldTick ≤ 0 →
      (drawOp env s).2 =
        Event.setCurrent ::
          (ownBroadcast s.DrawEvent ++ sharedBroadcast env.sharedDrawEvent)) ∧
    (drawOp ⟨0, 1, some [0], false, ImGuiMouseCursorKind.arrow, none⟩
        ⟨true, false, 0, false, EMouseCursorType.slateNone, [1], none, []⟩).2
      = [Event.setCurrent, Event.callback 0, Event.callback 1] ∧
    (drawOp ⟨0, 0, some [0], false, ImGuiMouseCursorKind.arrow, none⟩
        ⟨true, false, 0, false, EMouseCursorType.slateNone, [1], none, []⟩).2
      = [Event.setCurrent, Event.callback 1, Event.callback 0] := by
  refine ⟨fun h => ?_, fun h => ?_, by decide, by decide⟩
  · simp [drawOp, hs, hd, h]
  · simp [drawOp, hs, hd, Int.not_lt.mpr h]

/-- C8 witness: with the flag positive the shared callback fires before the
proxy's own callback. -/
theorem draw_callback_ordering_witness :
    (drawOp ⟨0, 1, some [2], false, ImGuiMouseCursorKind.arrow, none⟩
        ⟨true, false, 0, false, EMouseCursorType.slateNone, [3], none, []⟩).2
      = Event.setCurrent ::
          (sharedBroadcast (some [2]) ++ ownBroadcast [3]) :=
  (draw_callback_ordering ⟨0, 1, some [2], false, ImGuiMouseCursorKind.arrow, none⟩
    ⟨true, false, 0, false, EMouseCursorType.slateNone, [3], none, []⟩ rfl rfl).1 (by decide)

/-- C9: destroying a proxy whose context was created performs, in order:
make the context current, save its settings to the ini path derived from
the proxy's name, destroy the context, and set the default context as
current — so the global current-context pointer afterwards names the
default context, is still a live context, and is never the destroyed one. -/
theorem destructor_restores_default_context (c : Nat) (savedDir name : String)
    (g : GlobalImGui) (hc : c ≠ defaultContextId)
    (hdef : defaultContextId ∈ g.liveContexts) :
    (destructorOp (some c) (getIniFile savedDir name) g).2 =
      [DtorEvent.setCurrentCtx c,
       DtorEvent.saveIniSettings (savedDir ++ "/ImGui/" ++ name ++ ".ini"),
       DtorEvent.destroyCtx c,
       DtorEvent.setCurrentCtx defaultContextId] ∧
    (destructorOp (some c) (getIniFile savedDir name) g).1.currentContext
      = defaultContextId ∧
    (destructorOp (some c) (getIniFile savedDir name) g).1.currentContext ≠ c ∧
    (destructorOp (some c) (getIniFile savedDir name) g).1.currentContext
      ∈ (destructorOp (some c) (getIniFile savedDir name) g).1.liveContexts := by
  refine ⟨rfl, rfl, fun h => hc h.symm, ?_⟩
  show defaultContextId ∈ g.liveContexts.erase c
  exact (List.mem_erase_of_ne (Ne.symm hc)).mpr hdef

/-- C9 witness: destroying context 1 named "A" while it is current, with
the default context 0 live, ends with context 0 current and live. -/
theorem destructor_restores_default_context_witness :
    (destructorOp (some 1) (getIniFile "Saved" "A") ⟨1, [0, 1]⟩).1.currentContext
      = defaultContextId ∧
    (destructorOp (some 1) (getIniFile "Saved" "A") ⟨1, [0, 1]⟩).1.currentContext
      ∈ (destructorOp (some 1) (getIniFile "Saved" "A") ⟨1, [0, 1]⟩).1.liveContexts :=
  ⟨(destructor_restores_default_context 1 "Saved" "A" ⟨1, [0, 1]⟩ (by decide)
      (by decide)).2.1,
   (destructor_restores_default_context 1 "Saved" "A" ⟨1, [0, 1]⟩ (by decide)
      (by decide)).2.2.2⟩

/-- C10: `GetMouseIndex` maps the five supported mouse buttons to 0, 1, 2,
3, 4 respectively and silently returns -1 as an unsigned 32-bit value
(4294967295) for every other key, while `GetKeyIndex` with neither a key
code nor a char code is a fatal assertion. -/
theorem mouse_index_mapping :
    getMouseIndex FKey.leftMouseButton = 0 ∧
    getMouseIndex FKey.rightMouseButton = 1 ∧
    getMouseIndex FKey.middleMouseButton = 2 ∧
    getMouseIndex FKey.thumbMouseButton = 3 ∧
    getMouseIndex FKey.thumbMouseButton2 = 4 ∧
    (∀ code : Nat, getMouseIndex (FKey.otherKey code) = 4294967295) ∧
    getKeyIndex none none = none := by
  exact ⟨rfl, rfl, rfl, rfl, rfl, fun code => rfl, rfl⟩

end UnrealImGui
